import Mathlib

/-!
Verification of the Risk Calculation & Order-Protection Engine of
crypto-trader-pro, together with the frontend risk-calculator form logic.

The repository ships the engine only as a narrative design (docs/SETUP.md
pseudocode and the spec); the TypeScript frontend contains the form
validation (`AIRiskCalculator.tsx`) and the order-submission handler
(`FuturesTradingPage.tsx`).  Numbers are modelled as `ℚ`; JavaScript /
Python floating-point rounding is out of scope, the arithmetic is exact.
-/

namespace CryptoTrader

/-! ## Risk calculator data model -/

/-- Execution venue decided by the leverage branch. -/
inductive Venue where
  | spot
  | margined
deriving DecidableEq, Repr

/-- Warnings attached to a `PositionPlan`. -/
inductive PlanWarning where
  /-- Spot branch capped the position at the available capital; realized
  risk falls short of the target. -/
  | capitalExceeded
  /-- Required leverage exceeded the largest tier; realized risk exceeds
  the target. -/
  | leverageClamped
  /-- Required leverage was rounded up to the next tier; realized risk
  slightly exceeds the target. -/
  | riskRoundedUp
deriving DecidableEq, Repr

/-- Errors of `RiskCalculator.compute`. -/
inductive ComputeError where
  | validationError
  | degenerateStopError
deriving DecidableEq, Repr

/-- The computed output of the risk calculator. -/
structure PositionPlan where
  positionValue : ℚ
  requiredLeverage : ℚ
  selectedLeverage : ℚ
  marginUsed : ℚ
  actualPositionValue : ℚ
  capitalUsagePercent : ℚ
  targetRiskAmount : ℚ
  actualRiskAmount : ℚ
  executionVenue : Venue
  warnings : List PlanWarning
deriving DecidableEq, Repr

/-- Risk accuracy metric: realized risk over targeted risk. -/
def PositionPlan.riskAccuracy (p : PositionPlan) : ℚ :=
  p.actualRiskAmount / p.targetRiskAmount

/-- Leverage tiers supported by the exchange, as hard-coded in the
`calculate_optimal_position` pseudocode of docs/SETUP.md
(`available_leverages = [1, 2, 3, 5, 10, 20]`). -/
def availableLeverageTiers : List ℚ := [1, 2, 3, 5, 10, 20]

/-- Modelled from the spec: `LeverageSelector.quantize` is not implemented
under src/ (the spec describes it in §4.2 and SETUP.md gives the pseudocode
`min([lev for lev in available_leverages if lev >= calculated_leverage],
default=available_leverages[-1])`): the smallest tier that is at least the
required leverage, clamped to the largest tier when none qualifies. -/
def quantize (tiers : List ℚ) (requiredLeverage : ℚ) : ℚ :=
  match (tiers.filter (fun t => requiredLeverage ≤ t)).min? with
  | some m => m
  | none => tiers.getLastD 1

/-- Modelled from the spec: the risk-calculation configuration (§3
RiskSettings).  The tier list and the risk bounds 0.1–10 are fixed by
SETUP.md and the frontend form; the spec leaves the degenerate-stop
epsilon unspecified ("a minimum epsilon"), here 0.1 %. -/
structure RiskSettings where
  riskPercentMin : ℚ := 1/10
  riskPercentMax : ℚ := 10
  tiers : List ℚ := availableLeverageTiers
  minPriceDiffEpsilon : ℚ := 1/1000

/-- The default settings used by the narrative examples. -/
def defaultSettings : RiskSettings := {}

/-- `target_risk_amount = capital * (risk_percent / 100)` (SETUP.md line 343,
spec §4.1 step 1). -/
def targetRiskAmount (capital riskPercent : ℚ) : ℚ :=
  capital * (riskPercent / 100)

/-- `price_diff_percent = abs(entry_price - stop_loss) / entry_price`
(SETUP.md line 344, spec §4.1 step 2). -/
def priceDiffPercent (entryPrice stopLossPrice : ℚ) : ℚ :=
  |entryPrice - stopLossPrice| / entryPrice

/-- `required_position_value = target_risk_amount / price_diff_percent`
(SETUP.md line 345, spec §4.1 step 3). -/
def requiredPositionValue (capital riskPercent entryPrice stopLossPrice : ℚ) : ℚ :=
  targetRiskAmount capital riskPercent / priceDiffPercent entryPrice stopLossPrice

/-- `calculated_leverage = required_position_value / user_capital`
(SETUP.md line 346, spec §4.1 step 4). -/
def requiredLeverage (capital riskPercent entryPrice stopLossPrice : ℚ) : ℚ :=
  requiredPositionValue capital riskPercent entryPrice stopLossPrice / capital

/-- Modelled from the spec: `RiskCalculator.compute` is not implemented
under src/ (only its TypeScript type declarations and callers are);
modelled from spec §4.1 and the `calculate_optimal_position` pseudocode in
docs/SETUP.md, which agree on the arithmetic.  The spec's output guarantee
"every deviation from the target risk is reported via an explicit warning
list" is realised by attaching `capitalExceeded`, `leverageClamped` or
`riskRoundedUp` in the three deviating cases. -/
def compute (cfg : RiskSettings) (capital riskPercent entryPrice stopLossPrice : ℚ) :
    Except ComputeError PositionPlan :=
  if capital ≤ 0 ∨ riskPercent < cfg.riskPercentMin ∨ cfg.riskPercentMax < riskPercent ∨
      entryPrice ≤ 0 ∨ stopLossPrice ≤ 0 ∨ entryPrice = stopLossPrice then
    .error .validationError
  else if priceDiffPercent entryPrice stopLossPrice < cfg.minPriceDiffEpsilon then
    .error .degenerateStopError
  else if requiredLeverage capital riskPercent entryPrice stopLossPrice ≤ 1 then
    if capital < requiredPositionValue capital riskPercent entryPrice stopLossPrice then
      .ok {
        positionValue := requiredPositionValue capital riskPercent entryPrice stopLossPrice
        requiredLeverage := requiredLeverage capital riskPercent entryPrice stopLossPrice
        selectedLeverage := 1
        marginUsed := min (requiredPositionValue capital riskPercent entryPrice stopLossPrice)
          capital
        actualPositionValue :=
          min (requiredPositionValue capital riskPercent entryPrice stopLossPrice) capital
        capitalUsagePercent :=
          min (requiredPositionValue capital riskPercent entryPrice stopLossPrice) capital /
            capital * 100
        targetRiskAmount := targetRiskAmount capital riskPercent
        actualRiskAmount :=
          min (requiredPositionValue capital riskPercent entryPrice stopLossPrice) capital *
            priceDiffPercent entryPrice stopLossPrice
        executionVenue := .spot
        warnings := [.capitalExceeded] }
    else
      .ok {
        positionValue := requiredPositionValue capital riskPercent entryPrice stopLossPrice
        requiredLeverage := requiredLeverage capital riskPercent entryPrice stopLossPrice
        selectedLeverage := 1
        marginUsed := min (requiredPositionValue capital riskPercent entryPrice stopLossPrice)
          capital
        actualPositionValue := requiredPositionValue capital riskPercent entryPrice stopLossPrice
        capitalUsagePercent :=
          min (requiredPositionValue capital riskPercent entryPrice stopLossPrice) capital /
            capital * 100
        targetRiskAmount := targetRiskAmount capital riskPercent
        actualRiskAmount := targetRiskAmount capital riskPercent
        executionVenue := .spot
        warnings := [] }
  else
    .ok {
      positionValue := requiredPositionValue capital riskPercent entryPrice stopLossPrice
      requiredLeverage := requiredLeverage capital riskPercent entryPrice stopLossPrice
      selectedLeverage :=
        quantize cfg.tiers (requiredLeverage capital riskPercent entryPrice stopLossPrice)
      marginUsed := capital
      actualPositionValue :=
        capital * quantize cfg.tiers (requiredLeverage capital riskPercent entryPrice stopLossPrice)
      capitalUsagePercent := 100
      targetRiskAmount := targetRiskAmount capital riskPercent
      actualRiskAmount :=
        capital *
          quantize cfg.tiers (requiredLeverage capital riskPercent entryPrice stopLossPrice) *
          priceDiffPercent entryPrice stopLossPrice
      executionVenue := .margined
      warnings :=
        if (cfg.tiers.filter
            (fun t => requiredLeverage capital riskPercent entryPrice stopLossPrice ≤ t)) = [] then
          [.leverageClamped]
        else if capital *
            quantize cfg.tiers (requiredLeverage capital riskPercent entryPrice stopLossPrice) *
            priceDiffPercent entryPrice stopLossPrice = targetRiskAmount capital riskPercent then
          []
        else [.riskRoundedUp] }

/-! ## Protection state (circuit breaker)

Modelled from the spec: the `ProtectionState` component (§4.4, and the
Step 7.2 narrative of docs/SETUP.md) is not implemented under src/; the
model follows the spec's settlement-callback and trip-condition wording. -/

/-- Per-user protection configuration (spec §3 RiskSettings, protection
fields; defaults from SETUP.md Step 7: 5 % daily loss, 3 consecutive
losses). -/
structure ProtectionSettings where
  dailyLossLimitPercent : ℚ := 5
  consecutiveLossLimit : ℕ := 3
  protectionEnabled : Bool := true

/-- The default protection settings of SETUP.md Step 7. -/
def defaultProtectionSettings : ProtectionSettings := {}

/-- Modelled from the spec: day-scoped protection state (§3
ProtectionState). -/
structure ProtectionState where
  dailyRealizedPnl : ℚ
  dailyLossLimitAmount : ℚ
  consecutiveLossCount : ℕ
  tripped : Bool
deriving DecidableEq, Repr

/-- State at the start of a trading day: `daily_loss_limit_amount` is
derived from capital × daily_loss_limit_percent, fixed at start of day. -/
def startOfDayState (cfg : ProtectionSettings) (capital : ℚ) : ProtectionState :=
  { dailyRealizedPnl := 0
    dailyLossLimitAmount := capital * (cfg.dailyLossLimitPercent / 100)
    consecutiveLossCount := 0
    tripped := false }

/-- The trip condition of spec §4.4: `daily_realized_pnl ≤
-daily_loss_limit_amount` OR `consecutive_loss_count ≥
consecutive_loss_limit`. -/
def tripCondition (cfg : ProtectionSettings) (s : ProtectionState) : Prop :=
  s.dailyRealizedPnl ≤ -s.dailyLossLimitAmount ∨
    cfg.consecutiveLossLimit ≤ s.consecutiveLossCount

instance (cfg : ProtectionSettings) (s : ProtectionState) :
    Decidable (tripCondition cfg s) := by
  unfold tripCondition; infer_instance

/-- Modelled from the spec: the settlement callback
`record_trade_result(pnl)` of §4.4 — add the pnl, update the
consecutive-loss streak, then evaluate the trip condition (only when
protection is enabled).  An already-tripped state stays tripped: only
day-rollover and manual resume clear it (§7). -/
def record_trade_result (cfg : ProtectionSettings) (s : ProtectionState) (pnl : ℚ) :
    ProtectionState :=
  let s1 : ProtectionState :=
    { s with
      dailyRealizedPnl := s.dailyRealizedPnl + pnl
      consecutiveLossCount := if pnl < 0 then s.consecutiveLossCount + 1 else 0 }
  if cfg.protectionEnabled = true ∧ tripCondition cfg s1 then
    { s1 with tripped := true }
  else s1

/-- Admission errors of `SignalIntake.admit` (spec §4.5, §7). -/
inductive AdmissionError where
  | protectionTrippedError
deriving DecidableEq, Repr

/-- Modelled from the spec: the `ProtectionState` gate of
`SignalIntake.admit` (§4.5): a tripped breaker rejects every new
admission with `ProtectionTrippedError`. -/
def admitSignal (s : ProtectionState) : Except AdmissionError Unit :=
  if s.tripped then .error .protectionTrippedError else .ok ()

/-! ## OCO order-plan lifecycle

Modelled from the spec: the `OrderCoordinator` (§4.3) is not implemented
under src/; the state machine follows the spec's lifecycle wording.  The
fill of a contingent order and the cancellation of its sibling are one
atomic transition, as §4.3 requires ("cancel the sibling order as an
atomic follow-up action"). -/

/-- Lifecycle status of an order (spec §3 OrderPlan). -/
inductive OrderStatus where
  | pending
  | active
  | filled
  | cancelled
  | rejected
deriving DecidableEq, Repr

/-- An order plan: the overall plan status and the two linked protective
orders (stop-loss, take-profit). -/
structure OrderPlan where
  planStatus : OrderStatus
  stopLoss : OrderStatus
  takeProfit : OrderStatus
deriving DecidableEq, Repr

/-- A freshly created plan: entry submitted, nothing acknowledged yet. -/
def initialOrderPlan : OrderPlan :=
  { planStatus := .pending, stopLoss := .pending, takeProfit := .pending }

/-- Modelled from the spec: the transitions of the OrderPlan state machine
(§4.3): `PENDING → ACTIVE → {FILLED, CANCELLED, REJECTED}`; entry
rejection aborts the whole plan leaving no protective order active; the
fill of either protective order cancels the sibling atomically. -/
inductive OcoStep : OrderPlan → OrderPlan → Prop where
  /-- Entry order acknowledged and filled: the plan goes ACTIVE and both
  protective orders are registered live as an OCO group. -/
  | activate (p : OrderPlan) :
      p.planStatus = .pending →
      OcoStep p { planStatus := .active, stopLoss := .active, takeProfit := .active }
  /-- Entry order rejected by the exchange: the whole plan aborts and no
  protective order is left active. -/
  | entryRejected (p : OrderPlan) :
      p.planStatus = .pending →
      OcoStep p { planStatus := .rejected, stopLoss := .cancelled, takeProfit := .cancelled }
  /-- The stop-loss fills; the take-profit sibling is cancelled in the
  same atomic transition. -/
  | stopLossFills (p : OrderPlan) :
      p.planStatus = .active → p.stopLoss = .active →
      OcoStep p { planStatus := .filled, stopLoss := .filled, takeProfit := .cancelled }
  /-- The take-profit fills; the stop-loss sibling is cancelled in the
  same atomic transition. -/
  | takeProfitFills (p : OrderPlan) :
      p.planStatus = .active → p.takeProfit = .active →
      OcoStep p { planStatus := .filled, stopLoss := .cancelled, takeProfit := .filled }
  /-- The plan is cancelled (manual close or a tripped breaker cancelling
  pending plans); both protective orders are cancelled. -/
  | planCancelled (p : OrderPlan) :
      p.planStatus = .active →
      OcoStep p { planStatus := .cancelled, stopLoss := .cancelled, takeProfit := .cancelled }

/-- The order plans reachable from creation. -/
inductive OcoReachable : OrderPlan → Prop where
  | init : OcoReachable initialOrderPlan
  | step {p q : OrderPlan} : OcoReachable p → OcoStep p q → OcoReachable q

/-! ## Frontend: AIRiskCalculator.tsx -/

/-- The risk-calculation request of `risk.types.ts` / the form state of
`AIRiskCalculator.tsx`. -/
structure RiskCalculationRequest where
  entry_price : ℚ
  stop_loss_price : ℚ
  risk_percentage : ℚ
  account_balance : ℚ
deriving DecidableEq, Repr

/-- `ValidationResult` of `risk.types.ts`. -/
structure ValidationResult where
  isValid : Bool
  errors : List String
  warnings : List String
deriving DecidableEq, Repr

/-- The error list built by `validateForm` (AIRiskCalculator.tsx lines
56–78).  The balance check models the JavaScript truthiness guard
`formData.account_balance && formData.account_balance <= 0`: a zero
balance is falsy, so the positivity check is skipped. -/
def validateFormErrors (f : RiskCalculationRequest) : List String :=
  (if f.entry_price ≤ 0 then ["진입가는 0보다 큰 값이어야 합니다"] else []) ++
  (if f.stop_loss_price ≤ 0 then ["손절가는 0보다 큰 값이어야 합니다"] else []) ++
  (if f.entry_price = f.stop_loss_price then ["진입가와 손절가는 다른 값이어야 합니다"] else []) ++
  (if f.risk_percentage < 1/10 ∨ 10 < f.risk_percentage then
    ["리스크 비율은 0.1%~10% 범위여야 합니다"] else []) ++
  (if f.account_balance ≠ 0 ∧ f.account_balance ≤ 0 then
    ["계좌 잔고는 0보다 큰 값이어야 합니다"] else [])

/-- The warning list built by `validateForm` (AIRiskCalculator.tsx lines
80–93): a price difference above 20 % or below 0.5 %, or a risk percentage
above 5 %, warns but does not invalidate the form. -/
def validateFormWarnings (f : RiskCalculationRequest) : List String :=
  (if 20 < |f.entry_price - f.stop_loss_price| / f.entry_price * 100 then
    ["가격 차이가 20%를 초과합니다. 높은 리스크를 주의하세요."] else []) ++
  (if |f.entry_price - f.stop_loss_price| / f.entry_price * 100 < 1/2 then
    ["가격 차이가 0.5% 미만입니다. 너무 타이트한 손절일 수 있습니다."] else []) ++
  (if 5 < f.risk_percentage then ["5%를 초과하는 리스크는 고위험 거래입니다."] else [])

/-- `validateForm` of AIRiskCalculator.tsx lines 56–100: `isValid` holds
exactly when the error list is empty. -/
def validateForm (f : RiskCalculationRequest) : ValidationResult :=
  { isValid := (validateFormErrors f).isEmpty
    errors := validateFormErrors f
    warnings := validateFormWarnings f }

/-- Outcome of submitting the calculator form. -/
inductive CalculateOutcome where
  | rejected (errors : List String)
  | submitted (request : RiskCalculationRequest)
deriving DecidableEq, Repr

/-- `handleCalculate` of AIRiskCalculator.tsx lines 103–127: validate,
return early when invalid (no calculation request is issued), otherwise
hand the form data to the risk service. -/
def handleCalculate (f : RiskCalculationRequest) : CalculateOutcome :=
  if (validateForm f).isValid then .submitted f else .rejected (validateForm f).errors

/-! ## Frontend: FuturesTradingPage.tsx -/

/-- Order side. -/
inductive OrderSide where
  | buy
  | sell
deriving DecidableEq, Repr

/-- Order type. -/
inductive OrderType where
  | market
  | limit
deriving DecidableEq, Repr

/-- `FuturesOrderRequest` of FuturesTradingPage.tsx lines 69–78. -/
structure FuturesOrderRequest where
  symbol : String
  side : OrderSide
  type : OrderType
  quantity : ℚ
  leverage : ℚ
  price : Option ℚ := none
  stopPrice : Option ℚ := none
  takeProfitPrice : Option ℚ := none
deriving DecidableEq, Repr

/-- The fields of `RiskCalculationResult` that `handlePlaceOrder` reads
(FuturesTradingPage.tsx lines 80–93). -/
structure RiskCalculationResult where
  position_quantity : ℚ
  leverage : ℚ
  margin_used : ℚ
deriving DecidableEq, Repr

/-- `handlePlaceOrder` of FuturesTradingPage.tsx lines 171–184: without a
risk-calculation result it warns and returns (`none`: nothing is
submitted); with one it submits the form values with quantity and
leverage overridden by the computed `position_quantity` and `leverage`. -/
def handlePlaceOrder (riskCalculationResult : Option RiskCalculationResult)
    (values : FuturesOrderRequest) : Option FuturesOrderRequest :=
  match riskCalculationResult with
  | none => none
  | some r => some { values with quantity := r.position_quantity, leverage := r.leverage }

end CryptoTrader

open CryptoTrader

/-! ## Helper lemmas -/

lemma defaultSettings_eq :
    defaultSettings = ⟨1/10, 10, availableLeverageTiers, 1/1000⟩ := rfl

lemma priceDiffPercent_pos {entryPrice stopLossPrice : ℚ} (hentry : 0 < entryPrice)
    (hne : entryPrice ≠ stopLossPrice) : 0 < priceDiffPercent entryPrice stopLossPrice :=
  div_pos (abs_pos.mpr (sub_ne_zero.mpr hne)) hentry

lemma requiredLeverage_eq_div {capital riskPercent entryPrice stopLossPrice : ℚ}
    (hcap : capital ≠ 0) :
    requiredLeverage capital riskPercent entryPrice stopLossPrice =
      (riskPercent / 100) / priceDiffPercent entryPrice stopLossPrice := by
  unfold requiredLeverage requiredPositionValue targetRiskAmount
  field_simp
  rw [mul_comm capital riskPercent]
  exact mul_div_mul_right _ _ hcap

lemma requiredPositionValue_le_capital {capital riskPercent entryPrice stopLossPrice : ℚ}
    (hcap : 0 < capital)
    (hlev : requiredLeverage capital riskPercent entryPrice stopLossPrice ≤ 1) :
    requiredPositionValue capital riskPercent entryPrice stopLossPrice ≤ capital :=
  (div_le_one hcap).mp hlev

/-- When the required leverage is at most 1 and the risk percentage is at
least the 0.1 lower bound, the price difference clears the 0.1 % epsilon. -/
lemma eps_le_priceDiffPercent {capital riskPercent entryPrice stopLossPrice : ℚ}
    (hcap : 0 < capital) (hrlo : 1/10 ≤ riskPercent) (hentry : 0 < entryPrice)
    (hne : entryPrice ≠ stopLossPrice)
    (hlev : requiredLeverage capital riskPercent entryPrice stopLossPrice ≤ 1) :
    1/1000 ≤ priceDiffPercent entryPrice stopLossPrice := by
  have hd : 0 < priceDiffPercent entryPrice stopLossPrice := priceDiffPercent_pos hentry hne
  rw [requiredLeverage_eq_div (ne_of_gt hcap)] at hlev
  have h1 : riskPercent / 100 ≤ priceDiffPercent entryPrice stopLossPrice :=
    (div_le_one hd).mp hlev
  linarith

lemma rat_min?_eq_some_iff {xs : List ℚ} {a : ℚ} :
    xs.min? = some a ↔ a ∈ xs ∧ ∀ b ∈ xs, a ≤ b := by
  haveI : Std.Antisymm (fun a b : ℚ => a ≤ b) := ⟨fun h h2 => le_antisymm h h2⟩
  exact List.min?_eq_some_iff (fun a => le_refl a) (fun a b => min_choice a b)
    (fun a b c => le_min_iff)

/-- When some tier clears the required leverage, `quantize` returns the
least such tier. -/
lemma quantize_spec {tiers : List ℚ} {rl t0 : ℚ} (ht0 : t0 ∈ tiers) (hrl : rl ≤ t0) :
    quantize tiers rl ∈ tiers ∧ rl ≤ quantize tiers rl ∧
      ∀ t ∈ tiers, rl ≤ t → quantize tiers rl ≤ t := by
  unfold quantize
  have hmem : t0 ∈ tiers.filter (fun t => rl ≤ t) :=
    List.mem_filter.mpr ⟨ht0, by simpa using hrl⟩
  cases h : (tiers.filter (fun t => rl ≤ t)).min? with
  | none =>
    rw [List.min?_eq_none_iff] at h
    rw [h] at hmem
    exact absurd hmem (List.not_mem_nil t0)
  | some m =>
    obtain ⟨hm_mem, hm_le⟩ := rat_min?_eq_some_iff.mp h
    obtain ⟨hm_tiers, hm_ge⟩ := List.mem_filter.mp hm_mem
    exact ⟨hm_tiers, by simpa using hm_ge,
      fun t ht hrt => hm_le t (List.mem_filter.mpr ⟨ht, by simpa using hrt⟩)⟩

/-- `quantize` always returns either a tier or the clamp default. -/
lemma quantize_mem_or_default (tiers : List ℚ) (rl : ℚ) :
    quantize tiers rl ∈ tiers ∨ quantize tiers rl = tiers.getLastD 1 := by
  unfold quantize
  cases h : (tiers.filter (fun t => rl ≤ t)).min? with
  | none => exact Or.inr rfl
  | some m =>
    exact Or.inl (List.mem_filter.mp (rat_min?_eq_some_iff.mp h).1).1

/-- Above the largest default tier, the eligible-tier filter is empty and
`quantize` clamps to 20. -/
lemma quantize_default_clamped {rl : ℚ} (h : 20 < rl) :
    quantize availableLeverageTiers rl = 20 := by
  unfold quantize
  have hfilter : availableLeverageTiers.filter (fun t => rl ≤ t) = [] := by
    rw [List.filter_eq_nil_iff]
    intro t ht
    simp only [availableLeverageTiers, List.mem_cons, List.not_mem_nil, or_false] at ht
    rcases ht with rfl | rfl | rfl | rfl | rfl | rfl <;>
      simpa using by linarith
  rw [hfilter]
  rfl

/-! ## Claim theorems -/

/-- C1: for every input with positive capital, risk percent in the
configured bounds, positive and distinct entry and stop prices, when the
required leverage is at most 1, `compute` returns a plan executed on spot
with `margin_used = min(required_position_value, capital)`; in the
uncapped case the realized risk equals the target risk
`capital * (risk_percent / 100)`, and in the capped case
(`required_position_value > capital`) the realized risk is
`capital * price_diff_percent` and is reported as a warning, not an
error. -/
theorem claim_C1_spot_branch
    (capital riskPercent entryPrice stopLossPrice : ℚ)
    (hcap : 0 < capital) (hrlo : 1/10 ≤ riskPercent) (hrhi : riskPercent ≤ 10)
    (hentry : 0 < entryPrice) (hstop : 0 < stopLossPrice)
    (hne : entryPrice ≠ stopLossPrice)
    (hlev : requiredLeverage capital riskPercent entryPrice stopLossPrice ≤ 1) :
    ∃ plan, compute defaultSettings capital riskPercent entryPrice stopLossPrice = .ok plan ∧
      plan.executionVenue = .spot ∧
      plan.marginUsed =
        min (requiredPositionValue capital riskPercent entryPrice stopLossPrice) capital ∧
      plan.marginUsed ≤ capital ∧
      (requiredPositionValue capital riskPercent entryPrice stopLossPrice ≤ capital →
        plan.actualRiskAmount = targetRiskAmount capital riskPercent) ∧
      (capital < requiredPositionValue capital riskPercent entryPrice stopLossPrice →
        plan.actualRiskAmount = capital * priceDiffPercent entryPrice stopLossPrice ∧
        PlanWarning.capitalExceeded ∈ plan.warnings) := by
  have hvalid : ¬ (capital ≤ 0 ∨ riskPercent < defaultSettings.riskPercentMin ∨
      defaultSettings.riskPercentMax < riskPercent ∨ entryPrice ≤ 0 ∨ stopLossPrice ≤ 0 ∨
      entryPrice = stopLossPrice) := by
    rw [defaultSettings_eq]
    push_neg
    exact ⟨hcap, by linarith, by linarith, hentry, hstop, hne⟩
  have heps : ¬ (priceDiffPercent entryPrice stopLossPrice <
      defaultSettings.minPriceDiffEpsilon) := by
    rw [defaultSettings_eq]
    exact not_lt.mpr (eps_le_priceDiffPercent hcap hrlo hentry hne hlev)
  have hposle : requiredPositionValue capital riskPercent entryPrice stopLossPrice ≤ capital :=
    requiredPositionValue_le_capital hcap hlev
  unfold compute
  rw [if_neg hvalid, if_neg heps, if_pos hlev, if_neg (not_lt.mpr hposle)]
  exact ⟨_, rfl, rfl, rfl, min_le_right _ _, fun _ => rfl,
    fun hcontra => absurd hcontra (not_lt.mpr hposle)⟩

/-- Witness for C1: capital 1000, risk 3 %, entry 100, stop 94 (the
worked example of SETUP.md / spec §8). -/
theorem claim_C1_spot_branch_witness :
    ((0:ℚ) < 1000 ∧ (1:ℚ)/10 ≤ 3 ∧ (3:ℚ) ≤ 10 ∧ (0:ℚ) < 100 ∧ (0:ℚ) < 94 ∧
      (100:ℚ) ≠ 94 ∧ requiredLeverage 1000 3 100 94 ≤ 1) ∧
    (∃ plan, compute defaultSettings 1000 3 100 94 = .ok plan ∧
      plan.executionVenue = .spot ∧
      plan.marginUsed = min (requiredPositionValue 1000 3 100 94) 1000 ∧
      plan.marginUsed ≤ 1000 ∧
      (requiredPositionValue 1000 3 100 94 ≤ 1000 →
        plan.actualRiskAmount = targetRiskAmount 1000 3) ∧
      (1000 < requiredPositionValue 1000 3 100 94 →
        plan.actualRiskAmount = 1000 * priceDiffPercent 100 94 ∧
        PlanWarning.capitalExceeded ∈ plan.warnings)) := by
  have hlev : requiredLeverage 1000 3 100 94 ≤ 1 := by
    norm_num [requiredLeverage, requiredPositionValue, targetRiskAmount, priceDiffPercent,
      abs_of_nonneg]
  exact ⟨⟨by norm_num, by norm_num, by norm_num, by norm_num, by norm_num, by norm_num, hlev⟩,
    claim_C1_spot_branch 1000 3 100 94 (by norm_num) (by norm_num) (by norm_num) (by norm_num)
      (by norm_num) (by norm_num) hlev⟩

/-- C2: for every valid input whose required leverage is above 1 and at
most the largest tier (20), `compute` selects the smallest member of
`availableLeverageTiers` that is at least the required leverage — never a
lower tier — uses the full capital as margin, sets
`actual_position_value = capital * selected_leverage`, and the resulting
risk accuracy is at least 1. -/
theorem claim_C2_margined_branch
    (capital riskPercent entryPrice stopLossPrice : ℚ)
    (hcap : 0 < capital) (hrlo : 1/10 ≤ riskPercent) (hrhi : riskPercent ≤ 10)
    (hentry : 0 < entryPrice) (hstop : 0 < stopLossPrice)
    (hne : entryPrice ≠ stopLossPrice)
    (heps : 1/1000 ≤ priceDiffPercent entryPrice stopLossPrice)
    (hlev1 : 1 < requiredLeverage capital riskPercent entryPrice stopLossPrice)
    (hlev2 : requiredLeverage capital riskPercent entryPrice stopLossPrice ≤ 20) :
    ∃ plan, compute defaultSettings capital riskPercent entryPrice stopLossPrice = .ok plan ∧
      plan.selectedLeverage ∈ availableLeverageTiers ∧
      requiredLeverage capital riskPercent entryPrice stopLossPrice ≤ plan.selectedLeverage ∧
      (∀ t ∈ availableLeverageTiers,
        requiredLeverage capital riskPercent entryPrice stopLossPrice ≤ t →
        plan.selectedLeverage ≤ t) ∧
      plan.marginUsed = capital ∧
      plan.actualPositionValue = capital * plan.selectedLeverage ∧
      1 ≤ plan.riskAccuracy := by
  have hvalid : ¬ (capital ≤ 0 ∨ riskPercent < defaultSettings.riskPercentMin ∨
      defaultSettings.riskPercentMax < riskPercent ∨ entryPrice ≤ 0 ∨ stopLossPrice ≤ 0 ∨
      entryPrice = stopLossPrice) := by
    rw [defaultSettings_eq]
    push_neg
    exact ⟨hcap, by linarith, by linarith, hentry, hstop, hne⟩
  have heps' : ¬ (priceDiffPercent entryPrice stopLossPrice <
      defaultSettings.minPriceDiffEpsilon) := by
    rw [defaultSettings_eq]
    exact not_lt.mpr heps
  have h20 : (20:ℚ) ∈ availableLeverageTiers := by
    simp [availableLeverageTiers]
  obtain ⟨hq_mem, hq_ge, hq_min⟩ := quantize_spec h20 hlev2
  have hd : 0 < priceDiffPercent entryPrice stopLossPrice := lt_of_lt_of_le (by norm_num) heps
  have htarget_pos : 0 < targetRiskAmount capital riskPercent := by
    unfold targetRiskAmount
    positivity
  have htiers : defaultSettings.tiers = availableLeverageTiers := rfl
  unfold compute
  rw [if_neg hvalid, if_neg heps', if_neg (not_le.mpr hlev1)]
  refine ⟨_, rfl, hq_mem, hq_ge, hq_min, rfl, rfl, ?_⟩
  show 1 ≤ PositionPlan.riskAccuracy _
  unfold PositionPlan.riskAccuracy
  rw [one_le_div htarget_pos]
  show targetRiskAmount capital riskPercent ≤
    capital * quantize defaultSettings.tiers
      (requiredLeverage capital riskPercent entryPrice stopLossPrice) *
      priceDiffPercent entryPrice stopLossPrice
  have hkey : targetRiskAmount capital riskPercent =
      capital * requiredLeverage capital riskPercent entryPrice stopLossPrice *
        priceDiffPercent entryPrice stopLossPrice := by
    rw [requiredLeverage_eq_div (ne_of_gt hcap)]
    unfold targetRiskAmount
    field_simp
    ring
  rw [hkey]
  show capital * requiredLeverage capital riskPercent entryPrice stopLossPrice *
      priceDiffPercent entryPrice stopLossPrice ≤
    capital * quantize availableLeverageTiers
      (requiredLeverage capital riskPercent entryPrice stopLossPrice) *
      priceDiffPercent entryPrice stopLossPrice
  have hcd : 0 < capital * priceDiffPercent entryPrice stopLossPrice := by positivity
  calc capital * requiredLeverage capital riskPercent entryPrice stopLossPrice *
        priceDiffPercent entryPrice stopLossPrice
      = capital * priceDiffPercent entryPrice stopLossPrice *
        requiredLeverage capital riskPercent entryPrice stopLossPrice := by ring
    _ ≤ capital * priceDiffPercent entryPrice stopLossPrice *
        quantize availableLeverageTiers
          (requiredLeverage capital riskPercent entryPrice stopLossPrice) := by
        exact mul_le_mul_of_nonneg_left hq_ge (le_of_lt hcd)
    _ = capital * quantize availableLeverageTiers
          (requiredLeverage capital riskPercent entryPrice stopLossPrice) *
        priceDiffPercent entryPrice stopLossPrice := by ring

/-- Witness for C2: capital 1000, risk 3 %, entry 100, stop 98.5 (the
second worked example of SETUP.md / spec §8: required leverage 2, exact
tier hit). -/
theorem claim_C2_margined_branch_witness :
    ((0:ℚ) < 1000 ∧ (1:ℚ)/10 ≤ 3 ∧ (3:ℚ) ≤ 10 ∧ (0:ℚ) < 100 ∧ (0:ℚ) < 197/2 ∧
      (100:ℚ) ≠ 197/2 ∧ (1:ℚ)/1000 ≤ priceDiffPercent 100 (197/2) ∧
      1 < requiredLeverage 1000 3 100 (197/2) ∧
      requiredLeverage 1000 3 100 (197/2) ≤ 20) ∧
    (∃ plan, compute defaultSettings 1000 3 100 (197/2) = .ok plan ∧
      plan.selectedLeverage ∈ availableLeverageTiers ∧
      requiredLeverage 1000 3 100 (197/2) ≤ plan.selectedLeverage ∧
      (∀ t ∈ availableLeverageTiers,
        requiredLeverage 1000 3 100 (197/2) ≤ t → plan.selectedLeverage ≤ t) ∧
      plan.marginUsed = 1000 ∧
      plan.actualPositionValue = 1000 * plan.selectedLeverage ∧
      1 ≤ plan.riskAccuracy) := by
  have heps : (1:ℚ)/1000 ≤ priceDiffPercent 100 (197/2) := by
    norm_num [priceDiffPercent, abs_of_nonneg]
  have hlev1 : 1 < requiredLeverage 1000 3 100 (197/2) := by
    norm_num [requiredLeverage, requiredPositionValue, targetRiskAmount, priceDiffPercent,
      abs_of_nonneg]
  have hlev2 : requiredLeverage 1000 3 100 (197/2) ≤ 20 := by
    norm_num [requiredLeverage, requiredPositionValue, targetRiskAmount, priceDiffPercent,
      abs_of_nonneg]
  exact ⟨⟨by norm_num, by norm_num, by norm_num, by norm_num, by norm_num, by norm_num,
    heps, hlev1, hlev2⟩,
    claim_C2_margined_branch 1000 3 100 (197/2) (by norm_num) (by norm_num) (by norm_num)
      (by norm_num) (by norm_num) (by norm_num) heps hlev1 hlev2⟩

/-- C3: every plan `compute` returns satisfies the PositionPlan
invariants: `margin_used ≤ capital`, the selected leverage is a configured
tier or 1, a required leverage above the largest tier is clamped to the
largest tier (20), and any deviation of the realized risk from the target
risk carries a non-empty warning list. -/
theorem claim_C3_plan_invariants
    (capital riskPercent entryPrice stopLossPrice : ℚ) (plan : PositionPlan)
    (hok : compute defaultSettings capital riskPercent entryPrice stopLossPrice = .ok plan) :
    plan.marginUsed ≤ capital ∧
    (plan.selectedLeverage ∈ availableLeverageTiers ∨ plan.selectedLeverage = 1) ∧
    (20 < plan.requiredLeverage → plan.selectedLeverage = 20) ∧
    (plan.actualRiskAmount ≠ plan.targetRiskAmount → plan.warnings ≠ []) := by
  unfold compute at hok
  split at hok
  · exact absurd hok (by simp)
  split at hok
  · exact absurd hok (by simp)
  split at hok
  case isTrue hlev =>
    split at hok
    all_goals
      injection hok with h
      subst h
      refine ⟨min_le_right _ _, Or.inr rfl, fun hcontra => absurd hcontra (by simp; linarith), ?_⟩
    · intro _
      simp
    · intro h
      exact absurd rfl h
  case isFalse hlev =>
    injection hok with h
    subst h
    have htiers : defaultSettings.tiers = availableLeverageTiers := rfl
    refine ⟨le_refl _, ?_, ?_, ?_⟩
    · rcases quantize_mem_or_default defaultSettings.tiers
        (requiredLeverage capital riskPercent entryPrice stopLossPrice) with hmem | hdef
      · exact Or.inl (htiers ▸ hmem)
      · left
        rw [htiers] at hdef ⊢
        rw [hdef]
        simp [availableLeverageTiers]
    · intro hgt
      simp only at hgt
      rw [htiers]
      exact quantize_default_clamped hgt
    · intro hneq
      simp only at hneq ⊢
      split <;> simp_all
example :
    (compute defaultSettings 1000 3 100 94).toOption.map
      (fun p => (p.marginUsed, p.selectedLeverage, p.actualRiskAmount, p.executionVenue)) =
    some (500, 1, 30, .spot) := by
  norm_num [compute, defaultSettings, quantize, availableLeverageTiers, Except.toOption,
    requiredLeverage, requiredPositionValue, targetRiskAmount, priceDiffPercent,
    List.filter_cons, List.filter_nil, decide_eq_true_eq, List.min?_cons, List.min?_nil,
    abs_of_nonneg, abs_of_nonpos]
example :
    (compute defaultSettings 1000 3 100 (197/2)).toOption.map
      (fun p => (p.marginUsed, p.selectedLeverage, p.actualRiskAmount)) =
    some (1000, 2, 30) := by
  norm_num [compute, defaultSettings, quantize, availableLeverageTiers, Except.toOption,
    requiredLeverage, requiredPositionValue, targetRiskAmount, priceDiffPercent,
    List.filter_cons, List.filter_nil, decide_eq_true_eq, List.min?_cons, List.min?_nil,
    abs_of_nonneg, abs_of_nonpos]

/-! ## Protection-state lemmas -/

lemma record_trade_result_dailyLossLimitAmount (cfg : ProtectionSettings)
    (s : ProtectionState) (pnl : ℚ) :
    (record_trade_result cfg s pnl).dailyLossLimitAmount = s.dailyLossLimitAmount := by
  simp only [record_trade_result]
  split <;> split <;> rfl

lemma record_trade_result_dailyRealizedPnl (cfg : ProtectionSettings)
    (s : ProtectionState) (pnl : ℚ) :
    (record_trade_result cfg s pnl).dailyRealizedPnl = s.dailyRealizedPnl + pnl := by
  simp only [record_trade_result]
  split <;> split <;> rfl

lemma foldl_record_dailyLossLimitAmount (cfg : ProtectionSettings) (pnls : List ℚ)
    (s : ProtectionState) :
    (pnls.foldl (record_trade_result cfg) s).dailyLossLimitAmount = s.dailyLossLimitAmount := by
  induction pnls generalizing s with
  | nil => rfl
  | cons x xs ih =>
    rw [List.foldl_cons, ih, record_trade_result_dailyLossLimitAmount]

lemma foldl_record_dailyRealizedPnl (cfg : ProtectionSettings) (pnls : List ℚ)
    (s : ProtectionState) :
    (pnls.foldl (record_trade_result cfg) s).dailyRealizedPnl =
      s.dailyRealizedPnl + pnls.sum := by
  induction pnls generalizing s with
  | nil => simp
  | cons x xs ih =>
    rw [List.foldl_cons, ih, record_trade_result_dailyRealizedPnl, List.sum_cons]
    ring

lemma record_trade_result_trips_of_pnl {cfg : ProtectionSettings} {s : ProtectionState}
    {pnl : ℚ} (hen : cfg.protectionEnabled = true)
    (hloss : s.dailyRealizedPnl + pnl ≤ -s.dailyLossLimitAmount) :
    (record_trade_result cfg s pnl).tripped = true := by
  simp only [record_trade_result]
  rw [if_pos ⟨hen, Or.inl hloss⟩]

lemma record_trade_result_tripped_mono {cfg : ProtectionSettings} {s : ProtectionState}
    {pnl : ℚ} (h : s.tripped = true) :
    (record_trade_result cfg s pnl).tripped = true := by
  simp only [record_trade_result]
  split <;> split <;> first
  | rfl
  | exact h

lemma record_trade_result_consecutiveLossCount (cfg : ProtectionSettings)
    (s : ProtectionState) (pnl : ℚ) :
    (record_trade_result cfg s pnl).consecutiveLossCount =
      if pnl < 0 then s.consecutiveLossCount + 1 else 0 := by
  simp only [record_trade_result]
  split <;> split <;> rfl

lemma record_trade_result_count_of_neg {cfg : ProtectionSettings} {s : ProtectionState}
    {pnl : ℚ} (h : pnl < 0) :
    (record_trade_result cfg s pnl).consecutiveLossCount = s.consecutiveLossCount + 1 := by
  rw [record_trade_result_consecutiveLossCount, if_pos h]

lemma record_trade_result_count_of_nonneg {cfg : ProtectionSettings} {s : ProtectionState}
    {pnl : ℚ} (h : 0 ≤ pnl) :
    (record_trade_result cfg s pnl).consecutiveLossCount = 0 := by
  rw [record_trade_result_consecutiveLossCount, if_neg (not_lt.mpr h)]

lemma record_trade_result_tripped_eq (cfg : ProtectionSettings) (s : ProtectionState)
    (pnl : ℚ) :
    (record_trade_result cfg s pnl).tripped =
      if cfg.protectionEnabled = true ∧ tripCondition cfg
          { s with
            dailyRealizedPnl := s.dailyRealizedPnl + pnl
            consecutiveLossCount := if pnl < 0 then s.consecutiveLossCount + 1 else 0 } then
        true
      else s.tripped := by
  simp only [record_trade_result]
  split <;> split <;> rfl

lemma tripCondition_record_iff (cfg : ProtectionSettings) (s : ProtectionState) (pnl : ℚ) :
    tripCondition cfg (record_trade_result cfg s pnl) ↔
      tripCondition cfg
        { s with
          dailyRealizedPnl := s.dailyRealizedPnl + pnl
          consecutiveLossCount := if pnl < 0 then s.consecutiveLossCount + 1 else 0 } := by
  unfold tripCondition
  rw [record_trade_result_consecutiveLossCount, record_trade_result_dailyRealizedPnl,
    record_trade_result_dailyLossLimitAmount]

lemma record_trade_result_trips_of_streak {cfg : ProtectionSettings} {s : ProtectionState}
    {pnl : ℚ} (hen : cfg.protectionEnabled = true) (hp : pnl < 0)
    (hcount : cfg.consecutiveLossLimit ≤ s.consecutiveLossCount + 1) :
    (record_trade_result cfg s pnl).tripped = true := by
  simp only [record_trade_result]
  rw [if_pos ⟨hen, Or.inr (show cfg.consecutiveLossLimit ≤
    (if pnl < 0 then s.consecutiveLossCount + 1 else 0) by rw [if_pos hp]; exact hcount)⟩]

/-- C4: with protection enabled, a settlement leaves the breaker tripped
exactly when it was already tripped or the trip condition (daily realized
loss at or beyond the limit, or the consecutive-loss streak at the limit)
holds afterwards; a tripped state rejects admission; and concretely, with
the 5 % daily limit on capital 1000, any settlement run whose losses sum
to −50 or worse leaves the breaker tripped and `admit()` returning
`ProtectionTrippedError`. -/
theorem claim_C4_circuit_breaker
    (cfg : ProtectionSettings) (s : ProtectionState) (pnl : ℚ) (pnls : List ℚ)
    (hen : cfg.protectionEnabled = true) :
    ((record_trade_result cfg s pnl).tripped = true ↔
      s.tripped = true ∨ tripCondition cfg (record_trade_result cfg s pnl)) ∧
    (s.tripped = true → admitSignal s = .error .protectionTrippedError) ∧
    (pnls.sum ≤ -50 →
      (pnls.foldl (record_trade_result defaultProtectionSettings)
          (startOfDayState defaultProtectionSettings 1000)).tripped = true ∧
      admitSignal (pnls.foldl (record_trade_result defaultProtectionSettings)
          (startOfDayState defaultProtectionSettings 1000)) =
        .error .protectionTrippedError) := by
  refine ⟨?_, ?_, ?_⟩
  · rw [record_trade_result_tripped_eq]
    by_cases hcond : cfg.protectionEnabled = true ∧ tripCondition cfg
        { s with
          dailyRealizedPnl := s.dailyRealizedPnl + pnl
          consecutiveLossCount := if pnl < 0 then s.consecutiveLossCount + 1 else 0 }
    · rw [if_pos hcond]
      constructor
      · intro _
        exact Or.inr ((tripCondition_record_iff cfg s pnl).mpr hcond.2)
      · intro _
        rfl
    · rw [if_neg hcond]
      have htrip : ¬ tripCondition cfg (record_trade_result cfg s pnl) :=
        fun h => hcond ⟨hen, (tripCondition_record_iff cfg s pnl).mp h⟩
      constructor
      · exact Or.inl
      · rintro (h | h)
        · exact h
        · exact absurd h htrip
  · intro h
    unfold admitSignal
    rw [if_pos h]
  · intro hsum
    have htripped : (pnls.foldl (record_trade_result defaultProtectionSettings)
        (startOfDayState defaultProtectionSettings 1000)).tripped = true := by
      rcases List.eq_nil_or_concat pnls with rfl | ⟨L, b, rfl⟩
      · exfalso
        norm_num [List.sum_nil] at hsum
      · rw [List.concat_eq_append] at hsum ⊢
        rw [List.foldl_append, List.foldl_cons, List.foldl_nil]
        apply record_trade_result_trips_of_pnl rfl
        rw [foldl_record_dailyRealizedPnl, foldl_record_dailyLossLimitAmount]
        have hsum' : L.sum + b ≤ -50 := by
          rw [List.sum_append, List.sum_cons, List.sum_nil] at hsum
          linarith
        show (0:ℚ) + L.sum + b ≤ -(1000 * (5 / 100))
        linarith
    refine ⟨htripped, ?_⟩
    unfold admitSignal
    rw [if_pos htripped]

/-- Witness for C4: from a fresh day with capital 1000 and the default
5 % limit, settlements −30 then −25 (sum −55) trip the breaker and block
admission. -/
theorem claim_C4_circuit_breaker_witness :
    defaultProtectionSettings.protectionEnabled = true ∧
    ([-30, -25] : List ℚ).sum ≤ -50 ∧
    ((([-30, -25] : List ℚ).foldl (record_trade_result defaultProtectionSettings)
        (startOfDayState defaultProtectionSettings 1000)).tripped = true ∧
      admitSignal (([-30, -25] : List ℚ).foldl (record_trade_result defaultProtectionSettings)
        (startOfDayState defaultProtectionSettings 1000)) =
        .error .protectionTrippedError) := by
  have hsum : ([-30, -25] : List ℚ).sum ≤ -50 := by
    norm_num [List.sum_cons, List.sum_nil]
  exact ⟨rfl, hsum,
    (claim_C4_circuit_breaker defaultProtectionSettings
      (startOfDayState defaultProtectionSettings 1000) (-10) [-30, -25] rfl).2.2 hsum⟩

/-- C5: `record_trade_result` adds the pnl to the daily realized pnl,
increments the consecutive-loss count on a loss and resets it on any
non-losing trade; consequently with `consecutive_loss_limit = 3` any
three losing settlements in a row trip the breaker, regardless of the
cumulative daily P&L. -/
theorem claim_C5_settlement_updates
    (cfg : ProtectionSettings) (s : ProtectionState) (pnl a b c : ℚ)
    (hen : cfg.protectionEnabled = true) (hlim : cfg.consecutiveLossLimit = 3)
    (ha : a < 0) (hb : b < 0) (hc : c < 0) :
    (record_trade_result cfg s pnl).dailyRealizedPnl = s.dailyRealizedPnl + pnl ∧
    (pnl < 0 → (record_trade_result cfg s pnl).consecutiveLossCount =
      s.consecutiveLossCount + 1) ∧
    (0 ≤ pnl → (record_trade_result cfg s pnl).consecutiveLossCount = 0) ∧
    (record_trade_result cfg (record_trade_result cfg (record_trade_result cfg s a) b)
      c).tripped = true := by
  refine ⟨record_trade_result_dailyRealizedPnl cfg s pnl,
    fun h => record_trade_result_count_of_neg h,
    fun h => record_trade_result_count_of_nonneg h, ?_⟩
  apply record_trade_result_trips_of_streak hen hc
  rw [record_trade_result_count_of_neg hb, record_trade_result_count_of_neg ha, hlim]
  omega

/-- Witness for C5: a day already +100 in profit, then three −1 losses in
a row: the breaker trips although the cumulative P&L stays positive. -/
theorem claim_C5_settlement_updates_witness :
    defaultProtectionSettings.protectionEnabled = true ∧
    defaultProtectionSettings.consecutiveLossLimit = 3 ∧
    ((-1:ℚ) < 0) ∧
    ((record_trade_result defaultProtectionSettings
        (record_trade_result defaultProtectionSettings
          (record_trade_result defaultProtectionSettings
            ⟨100, 50, 0, false⟩ (-1)) (-1)) (-1)).tripped = true) := by
  refine ⟨rfl, rfl, by norm_num, ?_⟩
  exact (claim_C5_settlement_updates defaultProtectionSettings ⟨100, 50, 0, false⟩ 5
    (-1) (-1) (-1) rfl rfl (by norm_num) (by norm_num) (by norm_num)).2.2.2

/-! ## OCO lemmas -/

/-- Reachability invariant of the OCO machine: a filled protective order
forces its sibling cancelled and the plan filled. -/
lemma oco_invariant {p : OrderPlan} (h : OcoReachable p) :
    (p.stopLoss = .filled → p.takeProfit = .cancelled ∧ p.planStatus = .filled) ∧
    (p.takeProfit = .filled → p.stopLoss = .cancelled ∧ p.planStatus = .filled) := by
  induction h with
  | init =>
    constructor
    · intro h
      simp [initialOrderPlan] at h
    · intro h
      simp [initialOrderPlan] at h
  | step hr hstep ih =>
    cases hstep <;> simp_all

/-- C6: in every reachable execution of an order plan, when one
protective order (stop-loss or take-profit) has filled, the sibling's
state is `CANCELLED`, both protective orders are never `FILLED` together,
and the state admits no further transition (the sibling's cancellation is
final). -/
theorem claim_C6_oco_one_cancels_other (p : OrderPlan) (hreach : OcoReachable p) :
    ¬ (p.stopLoss = .filled ∧ p.takeProfit = .filled) ∧
    (p.stopLoss = .filled → p.takeProfit = .cancelled) ∧
    (p.takeProfit = .filled → p.stopLoss = .cancelled) ∧
    ((p.stopLoss = .filled ∨ p.takeProfit = .filled) → ∀ q, ¬ OcoStep p q) := by
  obtain ⟨h1, h2⟩ := oco_invariant hreach
  refine ⟨?_, fun h => (h1 h).1, fun h => (h2 h).1, ?_⟩
  · rintro ⟨hsl, htp⟩
    have hc := (h1 hsl).1
    rw [hc] at htp
    simp at htp
  · intro hfill q hstep
    have hplan : p.planStatus = .filled := by
      rcases hfill with h | h
      · exact (h1 h).2
      · exact (h2 h).2
    cases hstep <;> simp_all

/-- Witness for C6: the execution create → activate → stop-loss fills
reaches the state (FILLED, stop-loss FILLED, take-profit CANCELLED). -/
theorem claim_C6_oco_one_cancels_other_witness :
    OcoReachable (⟨.filled, .filled, .cancelled⟩ : OrderPlan) ∧
    (¬ ((⟨.filled, .filled, .cancelled⟩ : OrderPlan).stopLoss = .filled ∧
        (⟨.filled, .filled, .cancelled⟩ : OrderPlan).takeProfit = .filled) ∧
      ((⟨.filled, .filled, .cancelled⟩ : OrderPlan).stopLoss = .filled →
        (⟨.filled, .filled, .cancelled⟩ : OrderPlan).takeProfit = .cancelled) ∧
      ((⟨.filled, .filled, .cancelled⟩ : OrderPlan).takeProfit = .filled →
        (⟨.filled, .filled, .cancelled⟩ : OrderPlan).stopLoss = .cancelled) ∧
      (((⟨.filled, .filled, .cancelled⟩ : OrderPlan).stopLoss = .filled ∨
        (⟨.filled, .filled, .cancelled⟩ : OrderPlan).takeProfit = .filled) →
        ∀ q, ¬ OcoStep ⟨.filled, .filled, .cancelled⟩ q)) := by
  have h1 : OcoReachable (⟨.active, .active, .active⟩ : OrderPlan) :=
    .step .init (.activate initialOrderPlan rfl)
  have h2 : OcoReachable (⟨.filled, .filled, .cancelled⟩ : OrderPlan) :=
    .step h1 (.stopLossFills ⟨.active, .active, .active⟩ rfl rfl)
  exact ⟨h2, claim_C6_oco_one_cancels_other _ h2⟩

/-! ## Frontend lemmas -/

lemma validateFormErrors_ne_nil_of_bad {f : RiskCalculationRequest}
    (hbad : f.entry_price ≤ 0 ∨ f.stop_loss_price ≤ 0 ∨
      f.entry_price = f.stop_loss_price ∨
      f.risk_percentage < 1/10 ∨ 10 < f.risk_percentage) :
    validateFormErrors f ≠ [] := by
  unfold validateFormErrors
  intro hcontra
  rcases hbad with h | h | h | h | h
  · rw [if_pos h] at hcontra
    simp at hcontra
  · rw [if_pos h] at hcontra
    simp at hcontra
  · rw [if_pos h] at hcontra
    simp at hcontra
  · rw [if_pos (Or.inl h : f.risk_percentage < 1/10 ∨ 10 < f.risk_percentage)] at hcontra
    simp at hcontra
  · rw [if_pos (Or.inr h : f.risk_percentage < 1/10 ∨ 10 < f.risk_percentage)] at hcontra
    simp at hcontra

/-- C8: an input violating the preconditions — nonpositive entry price,
nonpositive stop price, entry equal to stop, or risk percentage outside
0.1–10 — fails `validateForm` with a non-empty error list, and
`handleCalculate` rejects it without issuing any calculation request. -/
theorem claim_C8_validation_rejects
    (f : RiskCalculationRequest)
    (hbad : f.entry_price ≤ 0 ∨ f.stop_loss_price ≤ 0 ∨
      f.entry_price = f.stop_loss_price ∨
      f.risk_percentage < 1/10 ∨ 10 < f.risk_percentage) :
    (validateForm f).isValid = false ∧
    (validateForm f).errors ≠ [] ∧
    handleCalculate f = .rejected (validateForm f).errors := by
  have hne := validateFormErrors_ne_nil_of_bad hbad
  have hval : (validateForm f).isValid = false := by
    unfold validateForm
    simpa using hne
  refine ⟨hval, by simpa [validateForm] using hne, ?_⟩
  unfold handleCalculate
  rw [hval]
  simp

/-- Witness for C8: a form with entry price 0 is rejected. -/
theorem claim_C8_validation_rejects_witness :
    (((0:ℚ) ≤ 0 ∨ (94:ℚ) ≤ 0 ∨ (0:ℚ) = 94 ∨ (3:ℚ) < 1/10 ∨ (10:ℚ) < 3)) ∧
    ((validateForm ⟨0, 94, 3, 1000⟩).isValid = false ∧
      (validateForm ⟨0, 94, 3, 1000⟩).errors ≠ [] ∧
      handleCalculate ⟨0, 94, 3, 1000⟩ = .rejected (validateForm ⟨0, 94, 3, 1000⟩).errors) := by
  exact ⟨Or.inl le_rfl, claim_C8_validation_rejects ⟨0, 94, 3, 1000⟩ (Or.inl le_rfl)⟩

lemma validateFormErrors_eq_nil {f : RiskCalculationRequest}
    (hentry : 0 < f.entry_price) (hstop : 0 < f.stop_loss_price)
    (hne : f.entry_price ≠ f.stop_loss_price)
    (hrlo : 1/10 ≤ f.risk_percentage) (hrhi : f.risk_percentage ≤ 10)
    (hbal : f.account_balance = 0 ∨ 0 < f.account_balance) :
    validateFormErrors f = [] := by
  unfold validateFormErrors
  rw [if_neg (not_le.mpr hentry), if_neg (not_le.mpr hstop), if_neg hne,
    if_neg (not_or.mpr ⟨not_lt.mpr hrlo, not_lt.mpr hrhi⟩),
    if_neg (show ¬(f.account_balance ≠ 0 ∧ f.account_balance ≤ 0) by
      rintro ⟨hz, hle⟩
      rcases hbal with h0 | hpos
      · exact hz h0
      · exact absurd hle (not_le.mpr hpos))]
  rfl

lemma handleCalculate_submitted_of_valid {f : RiskCalculationRequest}
    (h : validateFormErrors f = []) : handleCalculate f = .submitted f := by
  unfold handleCalculate validateForm
  rw [h]
  rfl

/-- C7 (amended): the frontend `validateForm` rejects only the exact
degenerate case `entry_price = stop_loss_price`; a near-degenerate signal
with a positive price difference below 0.5 % is NOT rejected — it only
receives a warning, the form stays valid and `handleCalculate` still
submits the calculation request. -/
theorem claim_C7_near_degenerate_warns_only
    (f : RiskCalculationRequest)
    (hentry : 0 < f.entry_price) (hstop : 0 < f.stop_loss_price)
    (hne : f.entry_price ≠ f.stop_loss_price)
    (hrlo : 1/10 ≤ f.risk_percentage) (hrhi : f.risk_percentage ≤ 10)
    (hbal : 0 < f.account_balance)
    (hdiff : |f.entry_price - f.stop_loss_price| / f.entry_price * 100 < 1/2) :
    (validateForm f).isValid = true ∧
    "가격 차이가 0.5% 미만입니다. 너무 타이트한 손절일 수 있습니다." ∈ (validateForm f).warnings ∧
    handleCalculate f = .submitted f := by
  have herr : validateFormErrors f = [] :=
    validateFormErrors_eq_nil hentry hstop hne hrlo hrhi (Or.inr hbal)
  refine ⟨by simp [validateForm, herr], ?_, handleCalculate_submitted_of_valid herr⟩
  show _ ∈ validateFormWarnings f
  unfold validateFormWarnings
  rw [if_pos hdiff]
  simp

/-- Witness for C7 (amended): entry 100, stop 99.9 — a 0.1 % stop
distance — passes validation with a warning and the calculation request is
submitted. -/
theorem claim_C7_near_degenerate_warns_only_witness :
    ((0:ℚ) < 100 ∧ (0:ℚ) < 999/10 ∧ (100:ℚ) ≠ 999/10 ∧ (1:ℚ)/10 ≤ 3 ∧ (3:ℚ) ≤ 10 ∧
      (0:ℚ) < 1000 ∧ |(100:ℚ) - 999/10| / 100 * 100 < 1/2) ∧
    ((validateForm ⟨100, 999/10, 3, 1000⟩).isValid = true ∧
      "가격 차이가 0.5% 미만입니다. 너무 타이트한 손절일 수 있습니다." ∈
        (validateForm ⟨100, 999/10, 3, 1000⟩).warnings ∧
      handleCalculate ⟨100, 999/10, 3, 1000⟩ = .submitted ⟨100, 999/10, 3, 1000⟩) := by
  have hdiff : |(100:ℚ) - 999/10| / 100 * 100 < 1/2 := by
    norm_num [abs_of_nonneg]
  exact ⟨⟨by norm_num, by norm_num, by norm_num, by norm_num, by norm_num, by norm_num, hdiff⟩,
    claim_C7_near_degenerate_warns_only ⟨100, 999/10, 3, 1000⟩ (by norm_num) (by norm_num)
      (by norm_num) (by norm_num) (by norm_num) (by norm_num) hdiff⟩

/-- Counterexample to C7 as stated: the near-degenerate input
entry 100, stop 99.9 has a price difference (0.1 %) below the 0.5 %
epsilon of AIRiskCalculator.tsx, yet the form validates, the signal is
not discarded, and a position calculation is requested — it is only
warned about, never rejected with an error. -/
theorem claim_C7_counterexample :
    |(100:ℚ) - 999/10| / 100 * 100 < 1/2 ∧
    (validateForm ⟨100, 999/10, 3, 1000⟩).isValid = true ∧
    (validateForm ⟨100, 999/10, 3, 1000⟩).errors = [] ∧
    handleCalculate ⟨100, 999/10, 3, 1000⟩ = .submitted ⟨100, 999/10, 3, 1000⟩ := by
  have herr : validateFormErrors ⟨100, 999/10, 3, 1000⟩ = [] := by
    norm_num [validateFormErrors]
  refine ⟨by norm_num [abs_of_nonneg], ?_, ?_, ?_⟩
  · simp [validateForm, herr]
  · simp [validateForm, herr]
  · unfold handleCalculate validateForm
    rw [herr]
    rfl

/-- C9: `handlePlaceOrder` submits nothing without a risk-calculation
result, and with one it submits the form values with quantity and leverage
overridden by the computed `position_quantity` and `leverage`. -/
theorem claim_C9_order_overrides_form :
    (∀ values : FuturesOrderRequest, handlePlaceOrder none values = none) ∧
    (∀ (r : RiskCalculationResult) (values : FuturesOrderRequest),
      handlePlaceOrder (some r) values =
        some { values with quantity := r.position_quantity, leverage := r.leverage }) :=
  ⟨fun _ => rfl, fun _ _ => rfl⟩

/-- C10: with an account balance of exactly 0, the balance positivity
check of `validateForm` is skipped (the JavaScript guard is falsy), so no
balance error is produced, and when the remaining preconditions hold the
calculation is requested with zero capital. -/
theorem claim_C10_zero_balance_accepted
    (f : RiskCalculationRequest) (hzero : f.account_balance = 0) :
    "계좌 잔고는 0보다 큰 값이어야 합니다" ∉ validateFormErrors f ∧
    (0 < f.entry_price → 0 < f.stop_loss_price → f.entry_price ≠ f.stop_loss_price →
      1/10 ≤ f.risk_percentage → f.risk_percentage ≤ 10 →
      (validateForm f).isValid = true ∧ handleCalculate f = .submitted f) := by
  constructor
  · unfold validateFormErrors
    rw [if_neg (show ¬(f.account_balance ≠ 0 ∧ f.account_balance ≤ 0) from
      fun hc => hc.1 hzero)]
    intro hmem
    simp only [List.append_nil, List.mem_append] at hmem
    rcases hmem with ((hmem | hmem) | hmem) | hmem <;>
      [skip; skip; skip; skip] <;>
      · split at hmem <;> simp_all
  · intro h1 h2 h3 h4 h5
    have herr := validateFormErrors_eq_nil h1 h2 h3 h4 h5 (Or.inl hzero)
    exact ⟨by simp [validateForm, herr], handleCalculate_submitted_of_valid herr⟩

/-- Witness for C10: entry 100, stop 94, risk 3 %, balance 0: no balance
error, the form validates, and the calculation proceeds on zero capital. -/
theorem claim_C10_zero_balance_accepted_witness :
    ((⟨100, 94, 3, 0⟩ : RiskCalculationRequest).account_balance = 0) ∧
    ("계좌 잔고는 0보다 큰 값이어야 합니다" ∉ validateFormErrors ⟨100, 94, 3, 0⟩ ∧
      (validateForm ⟨100, 94, 3, 0⟩).isValid = true ∧
      handleCalculate ⟨100, 94, 3, 0⟩ = .submitted ⟨100, 94, 3, 0⟩) := by
  have h := claim_C10_zero_balance_accepted ⟨100, 94, 3, 0⟩ rfl
  exact ⟨rfl, h.1, h.2 (by norm_num) (by norm_num) (by norm_num) (by norm_num) (by norm_num)⟩

/-- Witness for C3: the plan computed for capital 1000, risk 3 %, entry
100, stop 94 satisfies all four output invariants. -/
theorem claim_C3_plan_invariants_witness :
    compute defaultSettings 1000 3 100 94 =
      .ok ⟨500, 1/2, 1, 500, 500, 50, 30, 30, .spot, []⟩ ∧
    ((⟨500, 1/2, 1, 500, 500, 50, 30, 30, .spot, []⟩ : PositionPlan).marginUsed ≤ 1000 ∧
      ((⟨500, 1/2, 1, 500, 500, 50, 30, 30, .spot, []⟩ : PositionPlan).selectedLeverage ∈
          availableLeverageTiers ∨
        (⟨500, 1/2, 1, 500, 500, 50, 30, 30, .spot, []⟩ : PositionPlan).selectedLeverage = 1) ∧
      (20 < (⟨500, 1/2, 1, 500, 500, 50, 30, 30, .spot, []⟩ : PositionPlan).requiredLeverage →
        (⟨500, 1/2, 1, 500, 500, 50, 30, 30, .spot, []⟩ : PositionPlan).selectedLeverage = 20) ∧
      ((⟨500, 1/2, 1, 500, 500, 50, 30, 30, .spot, []⟩ : PositionPlan).actualRiskAmount ≠
          (⟨500, 1/2, 1, 500, 500, 50, 30, 30, .spot, []⟩ : PositionPlan).targetRiskAmount →
        (⟨500, 1/2, 1, 500, 500, 50, 30, 30, .spot, []⟩ : PositionPlan).warnings ≠ [])) := by
  have hok : compute defaultSettings 1000 3 100 94 =
      .ok ⟨500, 1/2, 1, 500, 500, 50, 30, 30, .spot, []⟩ := by
    norm_num [compute, defaultSettings, quantize, availableLeverageTiers,
      requiredLeverage, requiredPositionValue, targetRiskAmount, priceDiffPercent,
      List.filter_cons, List.filter_nil, decide_eq_true_eq, List.min?_cons, List.min?_nil,
      abs_of_nonneg, abs_of_nonpos]
  exact ⟨hok, claim_C3_plan_invariants 1000 3 100 94 _ hok⟩
